import Mathlib

/-!
Shallow embedding of `packages/navi/src/MapMatcher.ts`.

External collaborators (the pattern compiler `createMapping`, the path test
`mappingAgainstPathname`, the resolver `resolve`, and the child matchers'
`getResult`) are modelled as function parameters; the spec treats them as
given.  Object identity (matcher classes, resolvable references, the node
class itself, errors) is modelled by natural-number tags; the identity of a
freshly constructed child instance (`new childMatcher(...)`) is modelled by
a monotone counter `nextFresh` threaded through the node state, so that a
new instance is distinct from every previously constructed one.
-/

namespace Navi

/-- The request part of an environment; `path` is the remaining path
(`this.env.request.path`); the JS truthiness test on it is `path ≠ ""`. -/
structure Request where
  path : String
deriving DecidableEq

/-- The ambient environment (`env`) passed to a matcher node. -/
structure Env where
  request : Request
deriving DecidableEq

/-- `MaybeResolvableMatcher`: either a concrete matcher class
(`isMatcher` flag set) or an opaque resolvable reference.  Both are
identified by a tag standing for JS object identity. -/
inductive MaybeResolvableMatcher where
  | matcher (m : Nat)
  | resolvable (r : Nat)
deriving DecidableEq

/-- A compiled mapping entry (from `createMapping`): the original pattern,
the specificity sort key, and the handler-or-reference value.  The
`regExp` field is used only by the advisory-warning heuristic and is not
modelled. -/
structure Mapping where
  pattern : String
  key : String
  maybeResolvableMatcher : MaybeResolvableMatcher
deriving DecidableEq

/-- `this.child`: the entry selected at construction time together with the
narrowed environment stored in `matcherOptions` (the resolver and the
`appendFinalSlash` flag in `matcherOptions` are the node's own and are
passed to `execute` separately). -/
structure Child where
  mapping : Mapping
  env : Env
  maybeResolvableMatcher : MaybeResolvableMatcher
deriving DecidableEq

/-- A resolution handle returned by the external resolver:
`{ id, value?, error? }`. -/
structure Resolution where
  id : Nat
  value : Option Nat
  error : Option Nat
deriving DecidableEq

/-- A constructed child matcher instance (`new childMatcher(matcherOptions)`).
`id` is the freshness tag standing for JS reference identity; `matcher` is
the class it was constructed from and `env` the narrowed environment in its
options. -/
structure Instance where
  id : Nat
  matcher : Nat
  env : Env
deriving DecidableEq

/-- The evaluation memo `this.last`. -/
structure Last where
  matcher : Option Nat
  matcherInstance : Option Instance
deriving DecidableEq

/-- The per-node mutable state across `execute` calls: the memo and the
fresh-identity counter. -/
structure NodeState where
  last : Option Last
  nextFresh : Nat
deriving DecidableEq

/-- Route segments.  `map` is the node's self segment
(`createSegment('map', request, \x7b map: this.constructor \x7d, appendFinalSlash)`,
with `selfTag` standing for the identity of `this.constructor`);
`notFound` is `createNotFoundSegment(request)`; `notReady` is
`createNotReadySegment(request, error, appendFinalSlash)`; `content`
stands for any other segment kind a child matcher may produce. -/
inductive Segment where
  | map (request : Request) (selfTag : Nat) (appendFinalSlash : Bool)
  | notFound (request : Request)
  | notReady (request : Request) (error : Option Nat) (appendFinalSlash : Bool)
  | content (payload : Nat)
deriving DecidableEq

/-- `MatcherResult`: the value returned by one evaluation pass. -/
structure MatcherResult where
  resolutionIds : List Nat
  segments : List Segment
deriving DecidableEq

/-- The selection loop of the constructor's general case
(`for (let i = mappings.length - 1; i >= 0; i--) ... break`): entries are
tried from the end of the list toward the start; the first entry whose
path test returns a narrowed environment is taken and no further entries
are tried. -/
def selectFrom (pt : Env → Mapping → Bool → Option Env) (env : Env) (afs : Bool) :
    List Mapping → Option Child
  | [] => none
  | m :: rest =>
    match selectFrom pt env afs rest with
    | some c => some c
    | none =>
      match pt env m afs with
      | some childEnv => some ⟨m, childEnv, m.maybeResolvableMatcher⟩
      | none => none

/-- The constructor of `MapMatcherImplementation`: when the table is a
single entry with pattern `"/"`, that entry is selected unconditionally
with the unnarrowed environment; otherwise the general selection loop
runs.  `pt` is `mappingAgainstPathname`. -/
def constructChild (mappings : List Mapping) (env : Env) (afs : Bool)
    (pt : Env → Mapping → Bool → Option Env) : Option Child :=
  match mappings with
  | [m] =>
    if m.pattern = "/" then some ⟨m, env, m.maybeResolvableMatcher⟩
    else selectFrom pt env afs [m]
  | ms => selectFrom pt env afs ms

/-- `MapMatcherImplementation.execute`, one evaluation pass.  `child` is the
entry fixed at construction, `env` the node's own environment, `selfTag`
the identity of `this.constructor`, `afs` the `appendFinalSlash` flag,
`resolve` the external resolver and `getResult` the behaviour of child
matcher instances.  Returns the `MatcherResult` and the updated node
state. -/
def execute (child : Option Child) (env : Env) (selfTag : Nat) (afs : Bool)
    (resolve : Env → Nat → Resolution) (getResult : Instance → MatcherResult)
    (st : NodeState) : MatcherResult × NodeState :=
  match child with
  | none =>
    (⟨[],
      Segment.map env.request selfTag afs ::
        (if env.request.path ≠ "" then [Segment.notFound env.request] else [])⟩,
     st)
  | some c =>
    let info : List Nat × Option Nat × Option Resolution :=
      match c.maybeResolvableMatcher with
      | .matcher m => ([], some m, none)
      | .resolvable r =>
        let res := resolve c.env r
        ([res.id], res.value, some res)
    let resolutionIds := info.1
    let childMatcher := info.2.1
    let childMatcherResolution := info.2.2
    let build : Option Instance × Nat :=
      match childMatcher with
      | some m => (some ⟨st.nextFresh, m, c.env⟩, st.nextFresh + 1)
      | none => (none, st.nextFresh)
    let chosen : Option Instance × Nat :=
      match st.last with
      | none => build
      | some L => if L.matcher ≠ childMatcher then build else (L.matcherInstance, st.nextFresh)
    let childMatcherInstance := chosen.1
    let childMatcherResult := childMatcherInstance.map getResult
    let nextSegments : List Segment :=
      match childMatcherResult with
      | some r => r.segments
      | none =>
        match childMatcherResolution with
        | some res => [Segment.notReady c.env.request res.error afs]
        | none =>
          if env.request.path ≠ "" then [Segment.notFound env.request] else []
    (⟨resolutionIds ++
        (match childMatcherResult with
         | some r => r.resolutionIds
         | none => []),
      Segment.map env.request selfTag afs :: nextSegments⟩,
     ⟨some ⟨childMatcher, childMatcherInstance⟩, chosen.2⟩)

/-- A value supplied under a pattern in the paths object: either a callable
handler form (`typeof paths[pattern] === 'function'`, i.e. a matcher class
or a resolvable function) or some non-callable junk value. -/
inductive PathValue where
  | func (f : MaybeResolvableMatcher)
  | nonFunc (v : Nat)
deriving DecidableEq

/-- `typeof paths[pattern] === 'function'`. -/
def isFunctionValue : PathValue → Bool
  | .func _ => true
  | .nonFunc _ => false

/-- The argument accepted by `map()`: either a bare function (shorthand for
a root-only paths object) or a paths object, modelled as an ordered list of
(pattern, value) pairs in key order. -/
inductive MapOptions where
  | func (f : MaybeResolvableMatcher)
  | paths (ps : List (String × PathValue))

/-- The two construction-time errors `map()` can throw: the plain `Error`
for missing input and the `TypeError` for non-callable path values, each
carrying its message. -/
inductive MapError where
  | invalidInput (msg : String)
  | typeError (msg : String)
deriving DecidableEq

/-- The matcher class produced by `map()`: the original paths, the pattern
list, and the specificity-sorted mapping table bound to the class. -/
structure MapMatcherClass where
  paths : List (String × PathValue)
  patterns : List String
  orderedMappings : List Mapping
deriving DecidableEq

/-- `Array.prototype.join(', ')` on the list of invalid patterns. -/
def joinComma : List String → String
  | [] => ""
  | [a] => a
  | a :: rest => a ++ ", " ++ joinComma rest

/-- The message of the `TypeError` thrown by `map()` for invalid path
values, built exactly as in the source. -/
def typeErrorMessage (invalidPaths : List String) : String :=
  "The given " ++ (if invalidPaths.length = 1 then "path" else "paths") ++ ": " ++
    joinComma invalidPaths ++ " " ++
    (if invalidPaths.length = 1 then "is" else "are") ++ " " ++
    "invalid. Paths should be a matcher object or function that returns one. " ++
    "See https://frontarm.com/navi/reference/declarations/"

/-- The `map()` builder.  `options = none` models a missing/falsy argument.
`createMapping` is the external pattern compiler.  The advisory
`console.warn` diagnostics of the non-production branch are pure side
effects and are not modelled.  The table is sorted ascending by `key`
(`sort((x, y) => compareStrings(x.key, y.key))`, a stable sort). -/
def map (options : Option MapOptions)
    (createMapping : String → PathValue → Mapping) :
    Except MapError MapMatcherClass :=
  match options with
  | none => .error (.invalidInput "match() must be supplied with a paths object.")
  | some opts =>
    let paths : List (String × PathValue) :=
      match opts with
      | .func f => [("/", PathValue.func f)]
      | .paths ps => ps
    let patterns := paths.map Prod.fst
    let invalidPaths := patterns.filter fun pat =>
      match paths.lookup pat with
      | some v => !(isFunctionValue v)
      | none => true
    if invalidPaths.length > 0 then
      .error (.typeError (typeErrorMessage invalidPaths))
    else
      let mappings :=
        (paths.map fun p => createMapping p.1 p.2).mergeSort
          fun x y => decide (x.key ≤ y.key)
      .ok ⟨paths, patterns, mappings⟩

/-!
Projections of one `execute` pass, stated separately from the monolithic
definition so that theorems can relate the two.
-/

/-- The matcher resolved in a pass (`childMatcher` in the source): the
concrete matcher itself, or the `value` of the resolver's handle. -/
def resolvedMatcher (c : Child) (resolve : Env → Nat → Resolution) : Option Nat :=
  match c.maybeResolvableMatcher with
  | .matcher m => some m
  | .resolvable r => (resolve c.env r).value

/-- The resolution handle obtained in a pass (`childMatcherResolution`),
present exactly when the selected reference is resolvable. -/
def childResolution (c : Child) (resolve : Env → Nat → Resolution) : Option Resolution :=
  match c.maybeResolvableMatcher with
  | .matcher _ => none
  | .resolvable r => some (resolve c.env r)

/-- The node's own contribution to `resolutionIds`: the handle's id is
pushed whenever the resolver is consulted. -/
def ownResolutionIds (child : Option Child) (resolve : Env → Nat → Resolution) : List Nat :=
  match child with
  | none => []
  | some c =>
    match childResolution c resolve with
    | none => []
    | some res => [res.id]

/-- The child instance used in a pass: the memoized one when the resolved
matcher is identical to the memo's, a fresh one when a matcher is resolved
and differs, none when nothing is resolved. -/
def childInstanceOf (child : Option Child) (resolve : Env → Nat → Resolution)
    (st : NodeState) : Option Instance :=
  match child with
  | none => none
  | some c =>
    let cm := resolvedMatcher c resolve
    match st.last with
    | none => cm.map fun m => ⟨st.nextFresh, m, c.env⟩
    | some L =>
      if L.matcher ≠ cm then cm.map fun m => ⟨st.nextFresh, m, c.env⟩
      else L.matcherInstance

/-- Invariant of reachable node states: a memo with no matcher holds no
instance, and every memoized instance was created before the current value
of the freshness counter. -/
def StInv (st : NodeState) : Prop :=
  ∀ L, st.last = some L →
    (L.matcher = none → L.matcherInstance = none) ∧
    (∀ i, L.matcherInstance = some i → i.id < st.nextFresh)

/-!  Theorems. -/

/-- If every entry of the table fails the path test, the selection loop
selects nothing. -/
lemma selectFrom_eq_none (pt : Env → Mapping → Bool → Option Env) (env : Env)
    (afs : Bool) :
    ∀ ms : List Mapping,
      (∀ i (hi : i < ms.length), pt env (ms.get ⟨i, hi⟩) afs = none) →
      selectFrom pt env afs ms = none := by
  intro ms
  induction ms with
  | nil => intro _; rfl
  | cons m rest ih =>
    intro h
    have h0 : pt env m afs = none := by simpa using h 0 (by simp)
    have hr : selectFrom pt env afs rest = none := by
      apply ih
      intro i hi
      exact h (i + 1) (by simpa using Nat.succ_lt_succ hi)
    simp [selectFrom, hr, h0]

/-- The selection loop picks the entry at the greatest index whose path
test succeeds: if the test succeeds at index `j` and fails at every index
beyond `j`, the loop returns the entry at `j` with the narrowed
environment its test produced, whatever the tests at indices before `j`
return. -/
lemma selectFrom_last_success (pt : Env → Mapping → Bool → Option Env) (env : Env)
    (afs : Bool) :
    ∀ (ms : List Mapping) (j : Nat) (hj : j < ms.length) (ce : Env),
      pt env (ms.get ⟨j, hj⟩) afs = some ce →
      (∀ k (hk : k < ms.length), j < k → pt env (ms.get ⟨k, hk⟩) afs = none) →
      selectFrom pt env afs ms =
        some ⟨ms.get ⟨j, hj⟩, ce, (ms.get ⟨j, hj⟩).maybeResolvableMatcher⟩ := by
  intro ms
  induction ms with
  | nil =>
    intro j hj
    exact absurd hj (by simp)
  | cons m rest ih =>
    intro j hj ce hsucc hafter
    match j with
    | 0 =>
      have hr : selectFrom pt env afs rest = none := by
        apply selectFrom_eq_none
        intro i hi
        exact hafter (i + 1) (by simpa using Nat.succ_lt_succ hi) (Nat.succ_pos i)
      simp only [selectFrom, hr]
      simp only [List.get] at hsucc ⊢
      simp [hsucc]
    | j' + 1 =>
      have hj' : j' < rest.length := by simpa using Nat.lt_of_succ_lt_succ hj
      have hr := ih j' hj' ce (by simpa using hsucc)
        (fun k hk hlt =>
          hafter (k + 1) (by simpa using Nat.succ_lt_succ hk) (Nat.succ_lt_succ hlt))
      simp only [selectFrom, hr]
      simp [List.get]

/-- C1: for a mapping table with two or more entries, construction runs
the general selection loop: if the path test succeeds at index `j` (with
narrowed environment `ce`) and fails at every later — more specific —
index, the constructed child is the entry at `j` with that narrowed
environment, independently of the tests at earlier indices; the selection
is a pure function of the table and environment, computed once at
construction. -/
theorem c1_selection_order (mappings : List Mapping) (env : Env) (afs : Bool)
    (pt : Env → Mapping → Bool → Option Env) (j : Nat) (ce : Env)
    (hlen : 2 ≤ mappings.length) (hj : j < mappings.length)
    (hsucc : pt env (mappings.get ⟨j, hj⟩) afs = some ce)
    (hafter : ∀ k (hk : k < mappings.length), j < k →
      pt env (mappings.get ⟨k, hk⟩) afs = none) :
    constructChild mappings env afs pt =
      some ⟨mappings.get ⟨j, hj⟩, ce, (mappings.get ⟨j, hj⟩).maybeResolvableMatcher⟩ := by
  have hgen : constructChild mappings env afs pt = selectFrom pt env afs mappings := by
    match mappings, hlen with
    | a :: b :: rest, _ => rfl
  rw [hgen]
  exact selectFrom_last_success pt env afs mappings j hj ce hsucc hafter

/-- Fixture: a two-entry sorted table, the wildcard-like key before the
literal key. -/
def ms1 : List Mapping := [⟨"/a", "/a", .matcher 1⟩, ⟨"/b", "/b", .matcher 2⟩]

/-- Fixture: a path test that always consumes the whole path. -/
def ptAll : Env → Mapping → Bool → Option Env := fun _ _ _ => some ⟨⟨""⟩⟩

theorem c1_selection_order_witness :
    2 ≤ ms1.length ∧
    ptAll ⟨⟨"/b"⟩⟩ (ms1.get ⟨1, by decide⟩) false = some ⟨⟨""⟩⟩ ∧
    constructChild ms1 ⟨⟨"/b"⟩⟩ false ptAll =
      some ⟨ms1.get ⟨1, by decide⟩, ⟨⟨""⟩⟩,
            (ms1.get ⟨1, by decide⟩).maybeResolvableMatcher⟩ :=
  ⟨by decide, by decide,
    c1_selection_order ms1 ⟨⟨"/b"⟩⟩ false ptAll 1 ⟨⟨""⟩⟩ (by decide) (by decide)
      (by decide)
      (by
        intro k hk hlt
        have hms : ms1.length = 2 := rfl
        rw [hms] at hk
        exact absurd hk (by omega))⟩

/-- C6: for a mapping table containing exactly one entry whose pattern is
the root pattern `"/"`, node construction selects that entry
unconditionally — the result is independent of the path-consumption test
(it holds for every `pt`, including the everywhere-failing one), and the
child environment is the unnarrowed current environment. -/
theorem c6_root_special_case (m : Mapping) (env : Env) (afs : Bool)
    (pt : Env → Mapping → Bool → Option Env) (h : m.pattern = "/") :
    constructChild [m] env afs pt = some ⟨m, env, m.maybeResolvableMatcher⟩ := by
  simp [constructChild, h]

theorem c6_root_special_case_witness :
    (⟨"/", "/", .matcher 2⟩ : Mapping).pattern = "/" ∧
    constructChild [⟨"/", "/", .matcher 2⟩] ⟨⟨"/a"⟩⟩ false (fun _ _ _ => none)
      = some ⟨⟨"/", "/", .matcher 2⟩, ⟨⟨"/a"⟩⟩, .matcher 2⟩ :=
  ⟨rfl, c6_root_special_case ⟨"/", "/", .matcher 2⟩ ⟨⟨"/a"⟩⟩ false (fun _ _ _ => none) rfl⟩

/-- C5: when the Path Selector selected no entry, an evaluation pass whose
environment still has a nonempty remaining path returns exactly
`[self-segment, not-found-segment]` (the not-found segment computed from
the current environment's request), and an evaluation pass with an empty
remaining path returns exactly `[self-segment]`. -/
theorem c5_unmatched_segments (mappings : List Mapping) (env : Env) (selfTag : Nat)
    (afs : Bool) (pt : Env → Mapping → Bool → Option Env)
    (resolve : Env → Nat → Resolution) (getResult : Instance → MatcherResult)
    (st : NodeState)
    (hsel : constructChild mappings env afs pt = none) :
    (env.request.path ≠ "" →
      (execute (constructChild mappings env afs pt) env selfTag afs resolve getResult st).1.segments =
        [Segment.map env.request selfTag afs, Segment.notFound env.request]) ∧
    (env.request.path = "" →
      (execute (constructChild mappings env afs pt) env selfTag afs resolve getResult st).1.segments =
        [Segment.map env.request selfTag afs]) := by
  rw [hsel]
  constructor
  · intro h
    simp [execute, h]
  · intro h
    simp [execute, h]

theorem c5_unmatched_segments_witness :
    constructChild [] ⟨⟨"/a"⟩⟩ false (fun _ _ _ => none) = none ∧
    (⟨⟨"/a"⟩⟩ : Env).request.path ≠ "" ∧
    (execute (constructChild [] ⟨⟨"/a"⟩⟩ false (fun _ _ _ => none)) ⟨⟨"/a"⟩⟩ 3 false
        (fun _ _ => ⟨7, none, none⟩) (fun _ => ⟨[], []⟩) ⟨none, 0⟩).1.segments =
      [Segment.map ⟨"/a"⟩ 3 false, Segment.notFound ⟨"/a"⟩] :=
  ⟨rfl, by decide,
    (c5_unmatched_segments [] ⟨⟨"/a"⟩⟩ 3 false (fun _ _ _ => none)
      (fun _ _ => ⟨7, none, none⟩) (fun _ => ⟨[], []⟩) ⟨none, 0⟩ rfl).1 (by decide)⟩

/-- C7: every evaluation pass returns a segment sequence whose first
element is the self-descriptive "map" segment, computed from the current
(not narrowed) environment's request, the node's own identity and the
trailing-slash flag, followed by the continuation segments. -/
theorem c7_self_segment_first (child : Option Child) (env : Env) (selfTag : Nat)
    (afs : Bool) (resolve : Env → Nat → Resolution)
    (getResult : Instance → MatcherResult) (st : NodeState) :
    ∃ rest, (execute child env selfTag afs resolve getResult st).1.segments =
      Segment.map env.request selfTag afs :: rest := by
  cases child with
  | none => exact ⟨_, rfl⟩
  | some c => exact ⟨_, rfl⟩

/-- Decomposition of one `execute` pass on a selected child into the
separately defined projections: the returned ids are the node's own ids
followed by the child result's ids, the memo is updated to the resolved
matcher and the instance used, and the segments are the self segment
followed by the child result's segments, the not-ready placeholder, or the
not-found placeholder. -/
lemma execute_parts (c : Child) (env : Env) (selfTag : Nat) (afs : Bool)
    (resolve : Env → Nat → Resolution) (getResult : Instance → MatcherResult)
    (st : NodeState) :
    ((execute (some c) env selfTag afs resolve getResult st).1.resolutionIds =
      ownResolutionIds (some c) resolve ++
        (match (childInstanceOf (some c) resolve st).map getResult with
         | some r => r.resolutionIds
         | none => [])) ∧
    ((execute (some c) env selfTag afs resolve getResult st).2.last =
      some ⟨resolvedMatcher c resolve, childInstanceOf (some c) resolve st⟩) ∧
    ((execute (some c) env selfTag afs resolve getResult st).1.segments =
      Segment.map env.request selfTag afs ::
        (match (childInstanceOf (some c) resolve st).map getResult with
         | some r => r.segments
         | none =>
           match childResolution c resolve with
           | some res => [Segment.notReady c.env.request res.error afs]
           | none =>
             if env.request.path ≠ "" then [Segment.notFound env.request] else [])) := by
  cases hm : c.maybeResolvableMatcher with
  | matcher m =>
    cases hl : st.last with
    | none =>
      simp [execute, resolvedMatcher, childResolution, ownResolutionIds,
        childInstanceOf, hm, hl]
    | some L =>
      by_cases hEq : L.matcher = some m <;>
        simp [execute, resolvedMatcher, childResolution, ownResolutionIds,
          childInstanceOf, hm, hl, hEq]
  | resolvable r =>
    cases hv : (resolve c.env r).value with
    | none =>
      cases hl : st.last with
      | none =>
        simp [execute, resolvedMatcher, childResolution, ownResolutionIds,
          childInstanceOf, hm, hl, hv]
      | some L =>
        by_cases hEq : L.matcher = none <;>
          simp [execute, resolvedMatcher, childResolution, ownResolutionIds,
            childInstanceOf, hm, hl, hv, hEq]
    | some m =>
      cases hl : st.last with
      | none =>
        simp [execute, resolvedMatcher, childResolution, ownResolutionIds,
          childInstanceOf, hm, hl, hv]
      | some L =>
        by_cases hEq : L.matcher = some m <;>
          simp [execute, resolvedMatcher, childResolution, ownResolutionIds,
            childInstanceOf, hm, hl, hv, hEq]

/-- On a well-formed state, a pass that resolves no matcher uses no child
instance: the memoized instance can only be reused when the memoized
matcher (also `none`) matches, and then it is itself `none`. -/
lemma childInstanceOf_none_of_pending (c : Child) (resolve : Env → Nat → Resolution)
    (st : NodeState) (hinv : StInv st)
    (hcm : resolvedMatcher c resolve = none) :
    childInstanceOf (some c) resolve st = none := by
  cases hl : st.last with
  | none => simp [childInstanceOf, hcm, hl]
  | some L =>
    by_cases hEq : L.matcher = none
    · simp [childInstanceOf, hcm, hl, hEq, (hinv L hl).1 hEq]
    · simp [childInstanceOf, hcm, hl, hEq]

/-- A pass that resolves no matcher constructs no instance, so it leaves
the freshness counter unchanged. -/
lemma execute_nextFresh_of_pending (c : Child) (env : Env) (selfTag : Nat)
    (afs : Bool) (resolve : Env → Nat → Resolution)
    (getResult : Instance → MatcherResult) (st : NodeState)
    (hcm : resolvedMatcher c resolve = none) :
    (execute (some c) env selfTag afs resolve getResult st).2.nextFresh =
      st.nextFresh := by
  cases hm : c.maybeResolvableMatcher with
  | matcher m => simp [resolvedMatcher, hm] at hcm
  | resolvable r =>
    have hv : (resolve c.env r).value = none := by
      simpa [resolvedMatcher, hm] using hcm
    cases hl : st.last with
    | none => simp [execute, hm, hl, hv]
    | some L =>
      by_cases hEq : L.matcher = none <;> simp [execute, hm, hl, hv, hEq]

/-- C4: when the selected reference's resolution is pending (the resolver
returned neither a value nor an error), the pass returns exactly
`[self-segment, not-ready-segment]`, the not-ready segment carrying no
error and computed against the child environment's request with the
trailing-slash flag. -/
theorem c4_pending_segments (c : Child) (env : Env) (selfTag : Nat) (afs : Bool)
    (resolve : Env → Nat → Resolution) (getResult : Instance → MatcherResult)
    (st : NodeState) (r i : Nat)
    (hmrm : c.maybeResolvableMatcher = .resolvable r)
    (hres : resolve c.env r = ⟨i, none, none⟩)
    (hinv : StInv st) :
    (execute (some c) env selfTag afs resolve getResult st).1.segments =
      [Segment.map env.request selfTag afs,
       Segment.notReady c.env.request none afs] := by
  have hcm : resolvedMatcher c resolve = none := by
    simp [resolvedMatcher, hmrm, hres]
  have hinst := childInstanceOf_none_of_pending c resolve st hinv hcm
  have h := (execute_parts c env selfTag afs resolve getResult st).2.2
  rw [h, hinst]
  simp [childResolution, hmrm, hres]

/-- Fixture: a child selected for a resolvable reference. -/
def egResolvableChild : Child := ⟨⟨"/a", "/a", .resolvable 0⟩, ⟨⟨""⟩⟩, .resolvable 0⟩

theorem c4_pending_segments_witness :
    (egResolvableChild.maybeResolvableMatcher = .resolvable 0) ∧
    ((fun (_ : Env) (_ : Nat) => (⟨7, none, none⟩ : Resolution)) egResolvableChild.env 0 =
      ⟨7, none, none⟩) ∧
    StInv ⟨none, 0⟩ ∧
    (execute (some egResolvableChild) ⟨⟨"/a"⟩⟩ 3 false
        (fun _ _ => ⟨7, none, none⟩) (fun _ => ⟨[], []⟩) ⟨none, 0⟩).1.segments =
      [Segment.map ⟨"/a"⟩ 3 false,
       Segment.notReady egResolvableChild.env.request none false] := by
  refine ⟨rfl, rfl, ?_, ?_⟩
  · intro L hL
    cases hL
  · exact c4_pending_segments egResolvableChild ⟨⟨"/a"⟩⟩ 3 false
      (fun _ _ => ⟨7, none, none⟩) (fun _ => ⟨[], []⟩) ⟨none, 0⟩ 0 7 rfl rfl
      (by intro L hL; cases hL)

/-- C8: a resolver error is never thrown — the pass returns normally with
the error carried inside the not-ready segment — and a subsequent pass
whose resolution succeeds returns `[self-segment, ...child segments]`
with no trace of the earlier error. -/
theorem c8_resolution_error_inert (c : Child) (env : Env) (selfTag : Nat)
    (afs : Bool) (r e i1 i2 m : Nat)
    (resolve1 resolve2 : Env → Nat → Resolution)
    (getResult : Instance → MatcherResult) (st : NodeState)
    (hmrm : c.maybeResolvableMatcher = .resolvable r)
    (hr1 : resolve1 c.env r = ⟨i1, none, some e⟩)
    (hr2 : resolve2 c.env r = ⟨i2, some m, none⟩)
    (hinv : StInv st) :
    (execute (some c) env selfTag afs resolve1 getResult st).1.segments =
      [Segment.map env.request selfTag afs,
       Segment.notReady c.env.request (some e) afs] ∧
    (execute (some c) env selfTag afs resolve2 getResult
        (execute (some c) env selfTag afs resolve1 getResult st).2).1.segments =
      Segment.map env.request selfTag afs ::
        (getResult ⟨st.nextFresh, m, c.env⟩).segments := by
  have hcm : resolvedMatcher c resolve1 = none := by
    simp [resolvedMatcher, hmrm, hr1]
  have hinst := childInstanceOf_none_of_pending c resolve1 st hinv hcm
  have hlast := (execute_parts c env selfTag afs resolve1 getResult st).2.1
  rw [hcm, hinst] at hlast
  have hfresh := execute_nextFresh_of_pending c env selfTag afs resolve1 getResult st hcm
  have hst1 : (execute (some c) env selfTag afs resolve1 getResult st).2 =
      ⟨some ⟨none, none⟩, st.nextFresh⟩ := by
    rcases hE : (execute (some c) env selfTag afs resolve1 getResult st).2 with ⟨l, n⟩
    rw [hE] at hlast hfresh
    simp only at hlast hfresh
    rw [hlast, hfresh]
  constructor
  · have h := (execute_parts c env selfTag afs resolve1 getResult st).2.2
    rw [h, hinst]
    simp [childResolution, hmrm, hr1]
  · rw [hst1]
    simp [execute, hmrm, hr2]

theorem c8_resolution_error_inert_witness :
    (egResolvableChild.maybeResolvableMatcher = .resolvable 0) ∧
    ((fun (_ : Env) (_ : Nat) => (⟨7, none, some 4⟩ : Resolution)) egResolvableChild.env 0 =
      ⟨7, none, some 4⟩) ∧
    ((fun (_ : Env) (_ : Nat) => (⟨7, some 5, none⟩ : Resolution)) egResolvableChild.env 0 =
      ⟨7, some 5, none⟩) ∧
    StInv ⟨none, 0⟩ ∧
    ((execute (some egResolvableChild) ⟨⟨"/a"⟩⟩ 3 false
        (fun _ _ => ⟨7, none, some 4⟩) (fun j => ⟨[], [Segment.content j.id]⟩)
        ⟨none, 0⟩).1.segments =
      [Segment.map ⟨"/a"⟩ 3 false,
       Segment.notReady egResolvableChild.env.request (some 4) false] ∧
    (execute (some egResolvableChild) ⟨⟨"/a"⟩⟩ 3 false
        (fun _ _ => ⟨7, some 5, none⟩) (fun j => ⟨[], [Segment.content j.id]⟩)
        (execute (some egResolvableChild) ⟨⟨"/a"⟩⟩ 3 false
          (fun _ _ => ⟨7, none, some 4⟩) (fun j => ⟨[], [Segment.content j.id]⟩)
          ⟨none, 0⟩).2).1.segments =
      Segment.map ⟨"/a"⟩ 3 false ::
        ((fun (j : Instance) => (⟨[], [Segment.content j.id]⟩ : MatcherResult))
          ⟨0, 5, egResolvableChild.env⟩).segments) := by
  refine ⟨rfl, rfl, rfl, ?_, ?_⟩
  · intro L hL
    cases hL
  · exact c8_resolution_error_inert egResolvableChild ⟨⟨"/a"⟩⟩ 3 false 0 4 7 7 5
      (fun _ _ => ⟨7, none, some 4⟩) (fun _ _ => ⟨7, some 5, none⟩)
      (fun j => ⟨[], [Segment.content j.id]⟩) ⟨none, 0⟩ rfl rfl rfl
      (by intro L hL; cases hL)

/-- Fixture: a child matcher instance behaviour returning an empty result. -/
def getResultEmpty : Instance → MatcherResult := fun _ => ⟨[], []⟩

/-- C2: instance reuse across passes.  On a well-formed state: the memo is
always updated to the pair (resolved matcher, instance used this pass);
when the matcher resolved this pass is identical to the memoized one, the
memoized instance is reused untouched and its result produces the
continuation; when a matcher is resolved and differs from the memoized one
(including a first pass, where no memo exists), a fresh instance — built
from the narrowed child environment and distinct from every memoized
instance — is constructed and used. -/
theorem c2_instance_reuse (c : Child) (env : Env) (selfTag : Nat) (afs : Bool)
    (resolve : Env → Nat → Resolution) (getResult : Instance → MatcherResult)
    (st : NodeState) (hinv : StInv st) :
    (∃ inst, (execute (some c) env selfTag afs resolve getResult st).2.last =
      some ⟨resolvedMatcher c resolve, inst⟩) ∧
    (∀ L, st.last = some L → L.matcher = resolvedMatcher c resolve →
      (execute (some c) env selfTag afs resolve getResult st).2.last =
        some ⟨resolvedMatcher c resolve, L.matcherInstance⟩ ∧
      ∀ i, L.matcherInstance = some i →
        (execute (some c) env selfTag afs resolve getResult st).1.segments =
          Segment.map env.request selfTag afs :: (getResult i).segments) ∧
    (∀ m, resolvedMatcher c resolve = some m →
      (∀ L, st.last = some L → L.matcher ≠ some m) →
      (execute (some c) env selfTag afs resolve getResult st).2.last =
        some ⟨some m, some ⟨st.nextFresh, m, c.env⟩⟩ ∧
      (execute (some c) env selfTag afs resolve getResult st).1.segments =
        Segment.map env.request selfTag afs ::
          (getResult ⟨st.nextFresh, m, c.env⟩).segments ∧
      ∀ L i, st.last = some L → L.matcherInstance = some i →
        i ≠ (⟨st.nextFresh, m, c.env⟩ : Instance)) := by
  obtain ⟨hids, hlast, hsegs⟩ := execute_parts c env selfTag afs resolve getResult st
  refine ⟨⟨childInstanceOf (some c) resolve st, hlast⟩, ?_, ?_⟩
  · intro L hL hEq
    have hio : childInstanceOf (some c) resolve st = L.matcherInstance := by
      simp [childInstanceOf, hL, ← hEq]
    refine ⟨by rw [hlast, hio], ?_⟩
    intro i hi
    rw [hsegs, hio, hi]
    rfl
  · intro m hm hne
    have hio : childInstanceOf (some c) resolve st =
        some ⟨st.nextFresh, m, c.env⟩ := by
      cases hl : st.last with
      | none => simp [childInstanceOf, hl, hm]
      | some L =>
        have hd : L.matcher ≠ some m := hne L hl
        simp [childInstanceOf, hl, hm, hd]
    refine ⟨by rw [hlast, hm, hio], by rw [hsegs, hio]; rfl, ?_⟩
    intro L i hL hi hcontra
    have hlt := (hinv L hL).2 i hi
    rw [hcontra] at hlt
    simp at hlt

theorem c2_instance_reuse_witness :
    StInv ⟨none, 0⟩ ∧
    ((∃ inst, (execute (some egResolvableChild) ⟨⟨"/a"⟩⟩ 3 false
        (fun _ _ => ⟨7, some 5, none⟩) getResultEmpty ⟨none, 0⟩).2.last =
      some ⟨resolvedMatcher egResolvableChild (fun _ _ => ⟨7, some 5, none⟩), inst⟩) ∧
    (∀ L, (⟨none, 0⟩ : NodeState).last = some L →
      L.matcher = resolvedMatcher egResolvableChild (fun _ _ => ⟨7, some 5, none⟩) →
      (execute (some egResolvableChild) ⟨⟨"/a"⟩⟩ 3 false
          (fun _ _ => ⟨7, some 5, none⟩) getResultEmpty ⟨none, 0⟩).2.last =
        some ⟨resolvedMatcher egResolvableChild (fun _ _ => ⟨7, some 5, none⟩),
              L.matcherInstance⟩ ∧
      ∀ i, L.matcherInstance = some i →
        (execute (some egResolvableChild) ⟨⟨"/a"⟩⟩ 3 false
            (fun _ _ => ⟨7, some 5, none⟩) getResultEmpty ⟨none, 0⟩).1.segments =
          Segment.map (⟨⟨"/a"⟩⟩ : Env).request 3 false :: (getResultEmpty i).segments) ∧
    (∀ m, resolvedMatcher egResolvableChild (fun _ _ => ⟨7, some 5, none⟩) = some m →
      (∀ L, (⟨none, 0⟩ : NodeState).last = some L → L.matcher ≠ some m) →
      (execute (some egResolvableChild) ⟨⟨"/a"⟩⟩ 3 false
          (fun _ _ => ⟨7, some 5, none⟩) getResultEmpty ⟨none, 0⟩).2.last =
        some ⟨some m, some ⟨0, m, egResolvableChild.env⟩⟩ ∧
      (execute (some egResolvableChild) ⟨⟨"/a"⟩⟩ 3 false
          (fun _ _ => ⟨7, some 5, none⟩) getResultEmpty ⟨none, 0⟩).1.segments =
        Segment.map (⟨⟨"/a"⟩⟩ : Env).request 3 false ::
          (getResultEmpty ⟨0, m, egResolvableChild.env⟩).segments ∧
      ∀ L i, (⟨none, 0⟩ : NodeState).last = some L → L.matcherInstance = some i →
        i ≠ (⟨0, m, egResolvableChild.env⟩ : Instance))) := by
  refine ⟨?_, ?_⟩
  · intro L hL
    cases hL
  · exact c2_instance_reuse egResolvableChild ⟨⟨"/a"⟩⟩ 3 false
      (fun _ _ => ⟨7, some 5, none⟩) getResultEmpty ⟨none, 0⟩
      (by intro L hL; cases hL)

/-- C3 (amended): the returned `resolutionIds` is the node's own
resolution id — present (one element) exactly when the selected reference
is resolvable, i.e. whenever the resolver was consulted, whether the
resolution is pending or settled — concatenated with the ids reported by
the child result when a child result was produced; the concatenation is
not deduplicated. -/
theorem c3_resolution_ids_amended (child : Option Child) (env : Env) (selfTag : Nat)
    (afs : Bool) (resolve : Env → Nat → Resolution)
    (getResult : Instance → MatcherResult) (st : NodeState) :
    (execute child env selfTag afs resolve getResult st).1.resolutionIds =
      ownResolutionIds child resolve ++
        (match (childInstanceOf child resolve st).map getResult with
         | some r => r.resolutionIds
         | none => []) := by
  cases child with
  | none => simp [execute, ownResolutionIds, childInstanceOf]
  | some c => exact (execute_parts c env selfTag afs resolve getResult st).1

/-- Fixture: a child-instance behaviour reporting resolution id 7 itself. -/
def getResultSeven : Instance → MatcherResult := fun _ => ⟨[7], []⟩

/-- Fixture: a resolver whose resolution is settled (value present) with
id 7. -/
def resolveSettledSeven : Env → Nat → Resolution := fun _ _ => ⟨7, some 5, none⟩

/-- C3 counterexample: a pass whose resolvable reference is already
settled (the resolver returns a value, so no resolution is pending) still
returns the node's own resolution id, and the plain concatenation with the
child's ids can contain duplicates — the claim predicts the returned ids
to be exactly the child's ids `[7]` with no duplicate, but the pass
returns `[7, 7]`. -/
theorem c3_resolution_ids_counterexample :
    (resolveSettledSeven egResolvableChild.env 0).value = some 5 ∧
    (getResultSeven ⟨0, 5, egResolvableChild.env⟩).resolutionIds = [7] ∧
    (execute (some egResolvableChild) ⟨⟨"/a"⟩⟩ 3 false resolveSettledSeven
        getResultSeven ⟨none, 0⟩).1.resolutionIds = [7, 7] ∧
    (execute (some egResolvableChild) ⟨⟨"/a"⟩⟩ 3 false resolveSettledSeven
        getResultSeven ⟨none, 0⟩).1.resolutionIds ≠ [7] ∧
    ¬ (execute (some egResolvableChild) ⟨⟨"/a"⟩⟩ 3 false resolveSettledSeven
        getResultSeven ⟨none, 0⟩).1.resolutionIds.Nodup := by
  refine ⟨rfl, rfl, rfl, by decide, by decide⟩

/-- A member of a list occurs as a substring of its comma join. -/
lemma joinComma_mem_decomp (p : String) :
    ∀ l : List String, p ∈ l → ∃ s t, joinComma l = s ++ (p ++ t) := by
  intro l
  induction l with
  | nil =>
    intro h
    exact absurd h (List.not_mem_nil p)
  | cons a rest ih =>
    intro h
    cases rest with
    | nil =>
      have hp : p = a := by simpa using h
      subst hp
      exact ⟨"", "", by simp [joinComma, String.empty_append, String.append_empty]⟩
    | cons b rest2 =>
      rcases List.mem_cons.mp h with h1 | h2
      · subst h1
        refine ⟨"", ", " ++ joinComma (b :: rest2), ?_⟩
        simp [joinComma, String.empty_append, String.append_assoc]
      · rcases ih h2 with ⟨s, t, hst⟩
        refine ⟨a ++ ", " ++ s, t, ?_⟩
        simp [joinComma, hst, String.append_assoc]

/-- The `TypeError` message contains each invalid pattern verbatim. -/
lemma typeErrorMessage_names (p : String) (l : List String) (hp : p ∈ l) :
    ∃ s t, typeErrorMessage l = s ++ (p ++ t) := by
  rcases joinComma_mem_decomp p l hp with ⟨s, t, hst⟩
  refine ⟨"The given " ++ (if l.length = 1 then "path" else "paths") ++ ": " ++ s,
    t ++ " " ++ (if l.length = 1 then "is" else "are") ++ " " ++
      "invalid. Paths should be a matcher object or function that returns one. " ++
      "See https://frontarm.com/navi/reference/declarations/", ?_⟩
  simp [typeErrorMessage, hst, String.append_assoc]

/-- A key with a successful lookup is among the keys. -/
lemma mem_keys_of_lookup {β : Type} (l : List (String × β)) (a : String) (b : β)
    (h : l.lookup a = some b) : a ∈ l.map Prod.fst := by
  induction l with
  | nil => simp [List.lookup] at h
  | cons x xs ih =>
    rw [List.lookup] at h
    by_cases he : a = x.1
    · simp [he]
    · simp only [List.map_cons, List.mem_cons]
      right
      apply ih
      simpa [show (a == x.1) = false from by simp [he]] using h

/-- C9: `map()` with no input throws the construction error with its
fixed message, and `map()` with a paths object in which some pattern's
value is not a callable handler form throws the `TypeError` whose message
names that pattern (the pattern occurs verbatim in the message); both are
returned by the builder itself, before any node exists — evaluation
(`execute`) is total and returns no error. -/
theorem c9_construction_errors (createMapping : String → PathValue → Mapping)
    (ps : List (String × PathValue)) (p : String) (v : Nat)
    (hlook : ps.lookup p = some (.nonFunc v)) :
    map none createMapping =
      .error (.invalidInput "match() must be supplied with a paths object.") ∧
    ∃ invalid msg, map (some (.paths ps)) createMapping = .error (.typeError msg) ∧
      p ∈ invalid ∧ msg = typeErrorMessage invalid ∧
      ∃ s t, msg = s ++ (p ++ t) := by
  refine ⟨rfl, ?_⟩
  have hmem : p ∈ ps.map Prod.fst := mem_keys_of_lookup ps p (.nonFunc v) hlook
  have hfil : p ∈ (ps.map Prod.fst).filter fun pat =>
      match ps.lookup pat with
      | some w => !(isFunctionValue w)
      | none => true := by
    rw [List.mem_filter]
    exact ⟨hmem, by rw [hlook]; rfl⟩
  have hpos : 0 < ((ps.map Prod.fst).filter fun pat =>
      match ps.lookup pat with
      | some w => !(isFunctionValue w)
      | none => true).length :=
    List.length_pos.mpr (List.ne_nil_of_mem hfil)
  refine ⟨(ps.map Prod.fst).filter fun pat =>
      match ps.lookup pat with
      | some w => !(isFunctionValue w)
      | none => true,
    typeErrorMessage ((ps.map Prod.fst).filter fun pat =>
      match ps.lookup pat with
      | some w => !(isFunctionValue w)
      | none => true), ?_, hfil, rfl, ?_⟩
  · simp only [map]
    rw [if_pos hpos]
  · exact typeErrorMessage_names p _ hfil

theorem c9_construction_errors_witness :
    ([("/x", PathValue.nonFunc 9)].lookup "/x" = some (PathValue.nonFunc 9)) ∧
    (map none (fun pat _ => ⟨pat, pat, .matcher 0⟩) =
      .error (.invalidInput "match() must be supplied with a paths object.") ∧
    ∃ invalid msg,
      map (some (.paths [("/x", PathValue.nonFunc 9)]))
          (fun pat _ => ⟨pat, pat, .matcher 0⟩) =
        .error (.typeError msg) ∧
      "/x" ∈ invalid ∧ msg = typeErrorMessage invalid ∧
      ∃ s t, msg = s ++ ("/x" ++ t)) := by
  refine ⟨rfl, ?_⟩
  exact c9_construction_errors (fun pat _ => ⟨pat, pat, .matcher 0⟩)
    [("/x", PathValue.nonFunc 9)] "/x" 9 rfl

/-- C10: `map()` accepts an empty paths object without throwing,
producing a node type with an empty mapping table; construction on that
table selects no child, and a pass whose environment has a nonempty
remaining path returns exactly `[self-segment, not-found-segment]`. -/
theorem c10_empty_paths (createMapping : String → PathValue → Mapping)
    (pt : Env → Mapping → Bool → Option Env) (env : Env) (selfTag : Nat)
    (afs : Bool) (resolve : Env → Nat → Resolution)
    (getResult : Instance → MatcherResult) (st : NodeState)
    (h : env.request.path ≠ "") :
    ∃ cls, map (some (.paths [])) createMapping = .ok cls ∧
      cls.orderedMappings = [] ∧
      constructChild cls.orderedMappings env afs pt = none ∧
      (execute (constructChild cls.orderedMappings env afs pt) env selfTag afs
          resolve getResult st).1.segments =
        [Segment.map env.request selfTag afs, Segment.notFound env.request] := by
  refine ⟨⟨[], [], []⟩, ?_, rfl, rfl, ?_⟩
  · simp [map, List.mergeSort]
  · simp [constructChild, selectFrom, execute, h]

theorem c10_empty_paths_witness :
    (⟨⟨"/a"⟩⟩ : Env).request.path ≠ "" ∧
    ∃ cls, map (some (.paths [])) (fun pat _ => ⟨pat, pat, .matcher 0⟩) = .ok cls ∧
      cls.orderedMappings = [] ∧
      constructChild cls.orderedMappings ⟨⟨"/a"⟩⟩ false ptAll = none ∧
      (execute (constructChild cls.orderedMappings ⟨⟨"/a"⟩⟩ false ptAll) ⟨⟨"/a"⟩⟩ 3
          false resolveSettledSeven getResultEmpty ⟨none, 0⟩).1.segments =
        [Segment.map (⟨⟨"/a"⟩⟩ : Env).request 3 false,
         Segment.notFound (⟨⟨"/a"⟩⟩ : Env).request] := by
  refine ⟨by decide, ?_⟩
  exact c10_empty_paths (fun pat _ => ⟨pat, pat, .matcher 0⟩) ptAll ⟨⟨"/a"⟩⟩ 3 false
    resolveSettledSeven getResultEmpty ⟨none, 0⟩ (by decide)

end Navi
